import Mathlib

/-!
Verification development for the CryptoPulse dashboard (sentiment scoring and
aggregation pipeline, price-series analysis pipeline, pairwise price
correlation).  The definitions below are a shallow embedding of
`services/sentiment_analyzer.py`, `utils/analysis.py` and the correlation
code of `app.py`.  Machine floats are modelled by exact rationals (with the
square roots that appear in standard deviations and the price band taken in
`ℝ`), and the IEEE `NaN` values that the pandas/numpy code produces on
degenerate inputs are modelled by `Option`/dedicated constructors.  The VADER
`polarity_scores` function of the external nltk library is an abstract
parameter `pol : String → Scores` throughout: every property proved here
holds for an arbitrary scorer.
-/

/-! ## Sentiment analyzer: `services/sentiment_analyzer.py` -/

/-- Output of `SentimentIntensityAnalyzer.polarity_scores`: the dict
`{'compound', 'pos', 'neu', 'neg'}`. -/
structure Scores where
  compound : ℚ
  pos : ℚ
  neu : ℚ
  neg : ℚ
deriving DecidableEq, Repr

/-- The three-way threshold classification used at lines 59-64, 77-82 and
313-318 of `sentiment_analyzer.py`:
`compound >= 0.05 → "positive"`, `compound <= -0.05 → "negative"`,
otherwise `"neutral"`.  The float literal `0.05` is written as the equal
rational `5/100`. -/
def classify (c : ℚ) : String :=
  if c ≥ 5/100 then "positive"
  else if c ≤ -(5/100) then "negative"
  else "neutral"

/-- Python `str.strip()` on the character list (whitespace from both ends). -/
def pyStripList (l : List Char) : List Char :=
  ((l.dropWhile Char.isWhitespace).reverse.dropWhile Char.isWhitespace).reverse

/-- Python `text.strip()`. -/
def pyStrip (s : String) : String := String.mk (pyStripList s.data)

/-- Whether the last character already read (head of the reversed
accumulator) is one of `.`, `!`, `?` — the lookbehind of the regex
`(?<=[.!?])\s+` used at line 49. -/
def isEndPunct : Option Char → Bool
  | some c => c = '.' || c = '!' || c = '?'
  | none => false

/-- One step of the sentence splitter: state is
(finished pieces, current piece reversed, currently skipping a separator
whitespace run). A whitespace character starts a separator exactly when the
previous character is `.`, `!` or `?`; the whole whitespace run is consumed,
exactly as `re.split(r'(?<=[.!?])\s+', text)` does. -/
def splitStep (st : List (List Char) × List Char × Bool) (c : Char) :
    List (List Char) × List Char × Bool :=
  match st with
  | (done, acc, skipping) =>
    if skipping then
      if c.isWhitespace then (done, acc, true)
      else (done, [c], false)
    else
      if c.isWhitespace && isEndPunct acc.head? then (done ++ [acc.reverse], [], true)
      else (done, c :: acc, false)

/-- `re.split(r'(?<=[.!?])\s+', s)` of line 49 of `sentiment_analyzer.py`. -/
def splitSentences (s : String) : List String :=
  let fin := s.data.foldl splitStep ([], [], false)
  (fin.1 ++ [fin.2.1.reverse]).map String.mk

/-- One element of the `sentences` list built at lines 66-70. -/
structure SentenceInfo where
  text : String
  compound : ℚ
  sentiment : String
deriving DecidableEq, Repr

/-- The dict returned by `SentimentAnalyzer.analyze_text`. -/
structure SentimentResult where
  compound : ℚ
  positive : ℚ
  neutral : ℚ
  negative : ℚ
  sentiment : String
  sentences : List SentenceInfo
  explanation : String
deriving DecidableEq, Repr

/-- The per-label sentence tally of `_generate_sentiment_explanation`
(lines 100-107): keys `positive`/`negative` are counted as such, the key
`neutral` and any invalid key both increment `neutral`. -/
structure SentTally where
  positive : ℕ
  neutral : ℕ
  negative : ℕ
deriving DecidableEq, Repr

def tallyOf (sa : List SentenceInfo) : SentTally :=
  sa.foldl
    (fun t s =>
      if s.sentiment = "positive" then { t with positive := t.positive + 1 }
      else if s.sentiment = "negative" then { t with negative := t.negative + 1 }
      else { t with neutral := t.neutral + 1 })
    ⟨0, 0, 0⟩

/-- `_generate_sentiment_explanation` (lines 97-144), with Python f-string
number formatting rendered through `toString`. -/
def genExplanation (scores : Scores) (sentiment : String) (sa : List SentenceInfo) : String :=
  let t := tallyOf sa
  let np := t.positive
  let nn := t.negative
  let nneu := t.neutral
  if sentiment = "positive" then
    let intensity := if scores.pos > 6/10 then "very positive" else "somewhat positive"
    let e := "This text is " ++ intensity
    let e :=
      if scores.pos > 4/10 ∧ 0 < sa.length then
        e ++ ", with " ++ toString np ++ " positive statement(s)" ++
          (if 0 < nn then " and " ++ toString nn ++ " negative statement(s)" else "")
      else e
    e ++ "."
  else if sentiment = "negative" then
    let intensity := if scores.neg > 6/10 then "very negative" else "somewhat negative"
    let e := "This text is " ++ intensity
    let e :=
      if scores.neg > 4/10 ∧ 0 < sa.length then
        e ++ ", with " ++ toString nn ++ " negative statement(s)" ++
          (if 0 < np then " and " ++ toString np ++ " positive statement(s)" else "")
      else e
    e ++ "."
  else
    let e := "This text is neutral"
    let e :=
      if 1 < sa.length then
        e ++ ", with a mix of " ++ toString np ++ " positive, " ++ toString nn ++
          " negative, and " ++ toString nneu ++ " neutral statements"
      else e
    e ++ "."

/-- The early-return dict of lines 34-43. -/
def zeroSentiment : SentimentResult :=
  { compound := 0, positive := 0, neutral := 0, negative := 0,
    sentiment := "neutral", sentences := [], explanation := "No text provided" }

/-- `SentimentAnalyzer.analyze_text`.  A `None` argument is `none`; the
Python guard `not text or text.strip() == ""` is the stripped-empty test
(the empty string also strips to the empty string).  Sentences are split on
the stripped text, while the full-text scores are taken on the original
text, exactly as in the source. -/
def analyze_text (pol : String → Scores) (text : Option String) : SentimentResult :=
  match text with
  | none => zeroSentiment
  | some t =>
    if pyStrip t = "" then zeroSentiment
    else
      let pieces := splitSentences (pyStrip t)
      let sa := pieces.filterMap (fun s =>
        if pyStrip s = "" then none
        else
          let sc := pol s
          some { text := s, compound := sc.compound, sentiment := classify sc.compound })
      let full := pol t
      { compound := full.compound, positive := full.pos, neutral := full.neu,
        negative := full.neg, sentiment := classify full.compound, sentences := sa,
        explanation := genExplanation full (classify full.compound) sa }

/-! ### Batch aggregation: `SentimentAnalyzer.analyze_posts` -/

/-- A Reddit post dict.  `none` models a missing key: `post['title']` and
`post['id']` raise `KeyError` on a missing key, while `selftext`, `score`
and `num_comments` are read with `.get` defaults. -/
structure Post where
  id : Option String
  title : Option String
  selftext : Option String
  score : Option ℤ
  num_comments : Option ℤ
deriving DecidableEq, Repr

/-- The `basic_sentiment` dict of lines 256-262. -/
structure BasicSentiment where
  compound : ℚ
  positive : ℚ
  neutral : ℚ
  negative : ℚ
  sentiment : String
deriving DecidableEq, Repr

/-- One entry of `posts_details` (lines 273-279). -/
structure PostDetail where
  id : String
  title : String
  score : ℤ
  num_comments : ℤ
  sentiment : BasicSentiment
deriving DecidableEq, Repr

/-- The four-key score dict used for `total_scores` and `average_scores`. -/
structure ScoreMap where
  compound : ℚ
  positive : ℚ
  neutral : ℚ
  negative : ℚ
deriving DecidableEq, Repr

/-- The `sentiment_distribution` dict; after the ensure-all-keys loop of
lines 326-328 it holds exactly the three labels. -/
structure Distribution where
  positive : ℚ
  neutral : ℚ
  negative : ℚ
deriving DecidableEq, Repr

/-- Loop state of the `for post in posts` loop: `total_scores`, the
`Counter` of labels, and `posts_details`. -/
structure AggState where
  totals : ScoreMap
  counts : String → ℕ
  details : List PostDetail

/-- `Counter.__iadd__` on one key. -/
def bump (c : String → ℕ) (s : String) : String → ℕ :=
  fun k => if k = s then c k + 1 else c k

/-- The dict returned by `analyze_posts`. -/
structure AggResult where
  overall_sentiment : String
  average_scores : ScoreMap
  sentiment_distribution : Distribution
  posts_analyzed : ℕ
  posts_details : List PostDetail

/-- The neutral zero dict returned for an empty input list (lines 218-234)
and when every post failed (lines 288-304). -/
def zeroAgg : AggResult :=
  { overall_sentiment := "neutral", average_scores := ⟨0, 0, 0, 0⟩,
    sentiment_distribution := ⟨0, 0, 0⟩, posts_analyzed := 0, posts_details := [] }

def initAgg : AggState := { totals := ⟨0, 0, 0, 0⟩, counts := fun _ => 0, details := [] }

/-- The body of the `for post in posts` loop (lines 247-284), including its
`try/except` failure isolation.  A missing `title` raises before any state
is touched, so the state is unchanged.  A missing `id` raises at line 274,
AFTER `total_scores` and `sentiment_counts` were already updated at lines
264-270, so those updates survive while `posts_details` is not extended —
this ordering is exactly the source's. -/
def processPost (pol : String → Scores) (st : AggState) (post : Post) : AggState :=
  match post.title with
  | none => st
  | some title =>
    let full_text := title ++ " " ++ post.selftext.getD ""
    let r := analyze_text pol (some full_text)
    let basic : BasicSentiment :=
      ⟨r.compound, r.positive, r.neutral, r.negative, r.sentiment⟩
    let totals : ScoreMap :=
      ⟨st.totals.compound + basic.compound, st.totals.positive + basic.positive,
       st.totals.neutral + basic.neutral, st.totals.negative + basic.negative⟩
    let counts := bump st.counts basic.sentiment
    match post.id with
    | none => { st with totals := totals, counts := counts }
    | some pid =>
      { totals := totals, counts := counts,
        details := st.details ++
          [⟨pid, title, post.score.getD 0, post.num_comments.getD 0, basic⟩] }

/-- Lines 286-337: the post-loop aggregation.  The distribution values are
`count/post_count` for each label, with absent labels filled with `0` by the
ensure-loop — which agrees with `counts k / post_count` when `counts k = 0`. -/
def aggregate (st : AggState) : AggResult :=
  if st.details.length = 0 then zeroAgg
  else
    { overall_sentiment := classify (st.totals.compound / (st.details.length : ℚ)),
      average_scores :=
        ⟨st.totals.compound / (st.details.length : ℚ),
         st.totals.positive / (st.details.length : ℚ),
         st.totals.neutral / (st.details.length : ℚ),
         st.totals.negative / (st.details.length : ℚ)⟩,
      sentiment_distribution :=
        ⟨(st.counts "positive" : ℚ) / (st.details.length : ℚ),
         (st.counts "neutral" : ℚ) / (st.details.length : ℚ),
         (st.counts "negative" : ℚ) / (st.details.length : ℚ)⟩,
      posts_analyzed := st.details.length,
      posts_details := st.details }

/-- `SentimentAnalyzer.analyze_posts` (lines 208-337). -/
def analyze_posts (pol : String → Scores) (posts : List Post) : AggResult :=
  if posts = [] then zeroAgg
  else aggregate (posts.foldl (processPost pol) initAgg)

/-! ### Threshold policy lemmas -/

/-- A label agrees with the documented three-way threshold policy for a
given compound score. -/
def ThresholdOK (label : String) (c : ℚ) : Prop :=
  (label = "positive" ↔ 5/100 ≤ c) ∧
  (label = "negative" ↔ c ≤ -(5/100)) ∧
  (label = "neutral" ↔ ¬(5/100 ≤ c) ∧ ¬(c ≤ -(5/100)))

theorem classify_pos_iff (c : ℚ) : classify c = "positive" ↔ 5/100 ≤ c := by
  unfold classify
  split_ifs with h1 h2
  · exact iff_of_true rfl h1
  · exact iff_of_false (by decide) h1
  · exact iff_of_false (by decide) h1

theorem classify_neg_iff (c : ℚ) : classify c = "negative" ↔ c ≤ -(5/100) := by
  unfold classify
  split_ifs with h1 h2
  · refine iff_of_false (by decide) (fun hc => ?_)
    rw [ge_iff_le] at h1
    norm_num at h1 hc
    linarith
  · exact iff_of_true rfl h2
  · exact iff_of_false (by decide) h2

theorem classify_neu_iff (c : ℚ) :
    classify c = "neutral" ↔ ¬(5/100 ≤ c) ∧ ¬(c ≤ -(5/100)) := by
  unfold classify
  split_ifs with h1 h2
  · exact iff_of_false (by decide) (fun h => h.1 h1)
  · exact iff_of_false (by decide) (fun h => h.2 h2)
  · exact iff_of_true rfl ⟨h1, h2⟩

theorem thresholdOK_classify (c : ℚ) : ThresholdOK (classify c) c :=
  ⟨classify_pos_iff c, classify_neg_iff c, classify_neu_iff c⟩

theorem classify_cases (c : ℚ) :
    classify c = "positive" ∨ classify c = "neutral" ∨ classify c = "negative" := by
  unfold classify
  split_ifs <;> simp

theorem analyze_text_sentiment_eq (pol : String → Scores) (t : String) (h : pyStrip t ≠ "") :
    (analyze_text pol (some t)).sentiment = classify (analyze_text pol (some t)).compound := by
  simp only [analyze_text, if_neg h]

theorem analyze_text_mem_sentences (pol : String → Scores) (t : String) :
    ∀ s ∈ (analyze_text pol (some t)).sentences, s.sentiment = classify s.compound := by
  intro s hs
  by_cases h : pyStrip t = ""
  · simp [analyze_text, h, zeroSentiment] at hs
  · simp only [analyze_text, if_neg h, List.mem_filterMap] at hs
    obtain ⟨a, -, ha⟩ := hs
    by_cases h2 : pyStrip a = ""
    · simp [h2] at ha
    · simp only [if_neg h2, Option.some.injEq] at ha
      subst ha
      rfl

theorem analyze_text_sentiment_cases (pol : String → Scores) (text : Option String) :
    (analyze_text pol text).sentiment = "positive" ∨
      (analyze_text pol text).sentiment = "neutral" ∨
      (analyze_text pol text).sentiment = "negative" := by
  cases text with
  | none => exact Or.inr (Or.inl rfl)
  | some t =>
    by_cases h : pyStrip t = ""
    · refine Or.inr (Or.inl ?_)
      simp [analyze_text, h, zeroSentiment]
    · rw [analyze_text_sentiment_eq pol t h]
      exact classify_cases _

theorem analyze_posts_overall (pol : String → Scores) (posts : List Post) :
    (analyze_posts pol posts).overall_sentiment =
      classify (analyze_posts pol posts).average_scores.compound := by
  unfold analyze_posts aggregate
  split_ifs with h1 h2
  · show "neutral" = classify 0
    norm_num [classify]
  · show "neutral" = classify 0
    norm_num [classify]
  · rfl

/-- C1: wherever a sentiment label is produced — the overall label of
`analyze_text` on a non-blank text, every per-sentence label in its
`sentences` list, and the `overall_sentiment` computed from the average
compound in `analyze_posts` — the label is `"positive"` iff the relevant
compound is `≥ 0.05`, `"negative"` iff it is `≤ -0.05`, and `"neutral"`
otherwise. -/
theorem c1_threshold_policy (pol : String → Scores) (t : String) (h : pyStrip t ≠ "")
    (posts : List Post) :
    ThresholdOK (analyze_text pol (some t)).sentiment (analyze_text pol (some t)).compound ∧
    (∀ s ∈ (analyze_text pol (some t)).sentences, ThresholdOK s.sentiment s.compound) ∧
    ThresholdOK (analyze_posts pol posts).overall_sentiment
      (analyze_posts pol posts).average_scores.compound := by
  refine ⟨?_, ?_, ?_⟩
  · rw [analyze_text_sentiment_eq pol t h]
    exact thresholdOK_classify _
  · intro s hs
    rw [analyze_text_mem_sentences pol t s hs]
    exact thresholdOK_classify _
  · rw [analyze_posts_overall]
    exact thresholdOK_classify _

/-- Witness for C1 at a concrete scorer, text and post list. -/
theorem c1_threshold_policy_witness :
    ThresholdOK (analyze_text (fun _ => ⟨1/10, 0, 0, 0⟩) (some "good")).sentiment
      (analyze_text (fun _ => ⟨1/10, 0, 0, 0⟩) (some "good")).compound ∧
    (∀ s ∈ (analyze_text (fun _ => ⟨1/10, 0, 0, 0⟩) (some "good")).sentences,
      ThresholdOK s.sentiment s.compound) ∧
    ThresholdOK (analyze_posts (fun _ => ⟨1/10, 0, 0, 0⟩) []).overall_sentiment
      (analyze_posts (fun _ => ⟨1/10, 0, 0, 0⟩) []).average_scores.compound :=
  c1_threshold_policy (fun _ => ⟨1/10, 0, 0, 0⟩) "good" (by decide) []

/-- C8: a `None`, empty or whitespace-only text yields all scores `0`,
label `"neutral"`, no sentences and the explanation `"No text provided"`. -/
theorem c8_blank_text (pol : String → Scores) (text : Option String)
    (h : text = none ∨ ∃ s, text = some s ∧ pyStrip s = "") :
    analyze_text pol text =
      { compound := 0, positive := 0, neutral := 0, negative := 0,
        sentiment := "neutral", sentences := [], explanation := "No text provided" } := by
  rcases h with rfl | ⟨s, rfl, hs⟩
  · rfl
  · simp [analyze_text, hs, zeroSentiment]

/-- Witness for C8 at a whitespace-only text. -/
theorem c8_blank_text_witness :
    analyze_text (fun _ => ⟨0, 0, 0, 0⟩) (some "  ") =
      { compound := 0, positive := 0, neutral := 0, negative := 0,
        sentiment := "neutral", sentences := [], explanation := "No text provided" } :=
  c8_blank_text (fun _ => ⟨0, 0, 0, 0⟩) (some "  ") (Or.inr ⟨"  ", rfl, by decide⟩)

/-- C4: evaluation of `analyze_posts` at the failing input.  The first post
has a `title` but no `id`: its scores are accumulated into `total_scores`
and `sentiment_counts` at lines 264-270 before `post['id']` raises at line
274, so the batch result divides a two-post numerator by a one-post
denominator: the reported average compound is `(1/2 + 1/2)/1 = 1`, not the
arithmetic mean `(1/2 + 1/2)/2 = 1/2` over the successfully-scored posts. -/
theorem c4_numerator_leak :
    (analyze_posts (fun _ => ⟨1/2, 0, 0, 0⟩)
        [⟨none, some "good", none, none, none⟩,
         ⟨some "p2", some "fine", none, none, none⟩]).posts_analyzed = 1 ∧
    (analyze_posts (fun _ => ⟨1/2, 0, 0, 0⟩)
        [⟨none, some "good", none, none, none⟩,
         ⟨some "p2", some "fine", none, none, none⟩]).average_scores.compound = 1 ∧
    ((1 : ℚ)/2 + 1/2) / 2 ≠ 1 := by
  have e1 : pyStrip ("good" ++ " ") = "good" := by decide
  have e2 : pyStrip ("fine" ++ " ") = "fine" := by decide
  have g1 : ("good" : String) ≠ "" := by decide
  have g2 : ("fine" : String) ≠ "" := by decide
  have g5 : ("neutral" : String) ≠ "positive" := by decide
  have g6 : ("negative" : String) ≠ "positive" := by decide
  have hne : ([⟨none, some "good", none, none, none⟩,
      ⟨some "p2", some "fine", none, none, none⟩] : List Post) ≠ [] := by simp
  norm_num [analyze_posts, aggregate, processPost, analyze_text, initAgg, bump,
    e1, e2, g1, g2, g5, g6, hne, classify]

/-- C9 counterexample: with one scored-but-detail-less post (missing `id`)
and one fully processed post, the claim's hypothesis holds
(`posts_analyzed = 1 ≥ 1`) yet the `sentiment_distribution` value for
`"positive"` is `2`, outside `[0,1]`, and the three distribution values sum
to `2`, not `1`. -/
theorem c9_distribution_counterexample :
    (analyze_posts (fun _ => ⟨1/2, 0, 0, 0⟩)
        [⟨none, some "up", none, none, none⟩,
         ⟨some "x1", some "ok", none, none, none⟩]).posts_analyzed = 1 ∧
    (analyze_posts (fun _ => ⟨1/2, 0, 0, 0⟩)
        [⟨none, some "up", none, none, none⟩,
         ⟨some "x1", some "ok", none, none, none⟩]).sentiment_distribution.positive = 2 ∧
    ¬ ((analyze_posts (fun _ => ⟨1/2, 0, 0, 0⟩)
        [⟨none, some "up", none, none, none⟩,
         ⟨some "x1", some "ok", none, none, none⟩]).sentiment_distribution.positive ≤ 1) ∧
    (analyze_posts (fun _ => ⟨1/2, 0, 0, 0⟩)
        [⟨none, some "up", none, none, none⟩,
         ⟨some "x1", some "ok", none, none, none⟩]).sentiment_distribution.positive +
      (analyze_posts (fun _ => ⟨1/2, 0, 0, 0⟩)
        [⟨none, some "up", none, none, none⟩,
         ⟨some "x1", some "ok", none, none, none⟩]).sentiment_distribution.neutral +
      (analyze_posts (fun _ => ⟨1/2, 0, 0, 0⟩)
        [⟨none, some "up", none, none, none⟩,
         ⟨some "x1", some "ok", none, none, none⟩]).sentiment_distribution.negative = 2 := by
  have e1 : pyStrip ("up" ++ " ") = "up" := by decide
  have e2 : pyStrip ("ok" ++ " ") = "ok" := by decide
  have g1 : ("up" : String) ≠ "" := by decide
  have g2 : ("ok" : String) ≠ "" := by decide
  have g5 : ("neutral" : String) ≠ "positive" := by decide
  have g6 : ("negative" : String) ≠ "positive" := by decide
  have hne : ([⟨none, some "up", none, none, none⟩,
      ⟨some "x1", some "ok", none, none, none⟩] : List Post) ≠ [] := by simp
  norm_num [analyze_posts, aggregate, processPost, analyze_text, initAgg, bump,
    e1, e2, g1, g2, g5, g6, hne, classify]

/-! ### Distribution invariants under failure-free detail building -/

/-- The total of the three label counters. -/
def triSum (c : String → ℕ) : ℕ := c "positive" + c "neutral" + c "negative"

theorem triSum_bump (c : String → ℕ) (l : String)
    (hl : l = "positive" ∨ l = "neutral" ∨ l = "negative") :
    triSum (bump c l) = triSum c + 1 := by
  have g1 : ("positive" : String) ≠ "neutral" := by decide
  have g2 : ("positive" : String) ≠ "negative" := by decide
  have g3 : ("neutral" : String) ≠ "positive" := by decide
  have g4 : ("neutral" : String) ≠ "negative" := by decide
  have g5 : ("negative" : String) ≠ "positive" := by decide
  have g6 : ("negative" : String) ≠ "neutral" := by decide
  rcases hl with rfl | rfl | rfl <;>
    simp [triSum, bump, g1, g2, g3, g4, g5, g6] <;> omega

theorem foldl_processPost_triSum (pol : String → Scores) (l : List Post)
    (hl : ∀ p ∈ l, p.title.isSome → p.id.isSome) :
    ∀ st : AggState, triSum st.counts = st.details.length →
      triSum ((l.foldl (processPost pol) st).counts) =
        ((l.foldl (processPost pol) st).details.length) := by
  induction l with
  | nil => intro st h; simpa using h
  | cons p t ih =>
    intro st h
    rw [List.foldl_cons]
    refine ih (fun q hq => hl q (List.mem_cons_of_mem p hq)) _ ?_
    cases hp : p.title with
    | none => simpa [processPost, hp] using h
    | some title =>
      have hid := hl p (List.mem_cons_self p t) (by simp [hp])
      obtain ⟨i, hi⟩ := Option.isSome_iff_exists.mp hid
      simp only [processPost, hp, hi]
      rw [triSum_bump _ _ (analyze_text_sentiment_cases pol _), List.length_append, h]
      simp

/-- C9 (amended): provided every post that is successfully scored also
completes its detail entry (every post with a `title` also has an `id`),
and at least one post is analyzed, then `posts_analyzed` equals the length
of `posts_details`, every `sentiment_distribution` value lies in `[0,1]`,
and the three distribution values sum to `1`. -/
theorem c9_distribution_invariants (pol : String → Scores) (posts : List Post)
    (hsafe : ∀ p ∈ posts, p.title.isSome → p.id.isSome)
    (hpos : 0 < (analyze_posts pol posts).posts_analyzed) :
    (analyze_posts pol posts).posts_analyzed =
      (analyze_posts pol posts).posts_details.length ∧
    (0 ≤ (analyze_posts pol posts).sentiment_distribution.positive ∧
      (analyze_posts pol posts).sentiment_distribution.positive ≤ 1) ∧
    (0 ≤ (analyze_posts pol posts).sentiment_distribution.neutral ∧
      (analyze_posts pol posts).sentiment_distribution.neutral ≤ 1) ∧
    (0 ≤ (analyze_posts pol posts).sentiment_distribution.negative ∧
      (analyze_posts pol posts).sentiment_distribution.negative ≤ 1) ∧
    (analyze_posts pol posts).sentiment_distribution.positive +
      (analyze_posts pol posts).sentiment_distribution.neutral +
      (analyze_posts pol posts).sentiment_distribution.negative = 1 := by
  by_cases hempty : posts = []
  · rw [hempty] at hpos
    simp [analyze_posts, zeroAgg] at hpos
  · have htri : triSum ((posts.foldl (processPost pol) initAgg).counts) =
        ((posts.foldl (processPost pol) initAgg).details.length) :=
      foldl_processPost_triSum pol posts hsafe initAgg (by simp [initAgg, triSum])
    set st := posts.foldl (processPost pol) initAgg with hst
    by_cases hlen : st.details.length = 0
    · exfalso
      simp only [analyze_posts, if_neg hempty, aggregate, ← hst, if_pos hlen] at hpos
      simp [zeroAgg] at hpos
    · have hL : (0:ℚ) < (st.details.length : ℚ) := by
        exact_mod_cast Nat.pos_of_ne_zero hlen
      have hsum : st.counts "positive" + st.counts "neutral" + st.counts "negative" =
          st.details.length := htri
      simp only [analyze_posts, if_neg hempty, aggregate, ← hst, if_neg hlen]
      refine ⟨trivial, ⟨?_, ?_⟩, ⟨?_, ?_⟩, ⟨?_, ?_⟩, ?_⟩
      · exact div_nonneg (Nat.cast_nonneg _) (le_of_lt hL)
      · rw [div_le_one hL]
        exact_mod_cast (by omega : st.counts "positive" ≤ st.details.length)
      · exact div_nonneg (Nat.cast_nonneg _) (le_of_lt hL)
      · rw [div_le_one hL]
        exact_mod_cast (by omega : st.counts "neutral" ≤ st.details.length)
      · exact div_nonneg (Nat.cast_nonneg _) (le_of_lt hL)
      · rw [div_le_one hL]
        exact_mod_cast (by omega : st.counts "negative" ≤ st.details.length)
      · rw [div_add_div_same, div_add_div_same, div_eq_one_iff_eq (ne_of_gt hL)]
        exact_mod_cast hsum

/-- Witness for C9 (amended) at a one-post list with both keys present. -/
theorem c9_distribution_invariants_witness :
    (analyze_posts (fun _ => ⟨1/2, 0, 0, 0⟩)
        [⟨some "w1", some "hi", none, none, none⟩]).posts_analyzed =
      (analyze_posts (fun _ => ⟨1/2, 0, 0, 0⟩)
        [⟨some "w1", some "hi", none, none, none⟩]).posts_details.length ∧
    (0 ≤ (analyze_posts (fun _ => ⟨1/2, 0, 0, 0⟩)
        [⟨some "w1", some "hi", none, none, none⟩]).sentiment_distribution.positive ∧
      (analyze_posts (fun _ => ⟨1/2, 0, 0, 0⟩)
        [⟨some "w1", some "hi", none, none, none⟩]).sentiment_distribution.positive ≤ 1) ∧
    (0 ≤ (analyze_posts (fun _ => ⟨1/2, 0, 0, 0⟩)
        [⟨some "w1", some "hi", none, none, none⟩]).sentiment_distribution.neutral ∧
      (analyze_posts (fun _ => ⟨1/2, 0, 0, 0⟩)
        [⟨some "w1", some "hi", none, none, none⟩]).sentiment_distribution.neutral ≤ 1) ∧
    (0 ≤ (analyze_posts (fun _ => ⟨1/2, 0, 0, 0⟩)
        [⟨some "w1", some "hi", none, none, none⟩]).sentiment_distribution.negative ∧
      (analyze_posts (fun _ => ⟨1/2, 0, 0, 0⟩)
        [⟨some "w1", some "hi", none, none, none⟩]).sentiment_distribution.negative ≤ 1) ∧
    (analyze_posts (fun _ => ⟨1/2, 0, 0, 0⟩)
        [⟨some "w1", some "hi", none, none, none⟩]).sentiment_distribution.positive +
      (analyze_posts (fun _ => ⟨1/2, 0, 0, 0⟩)
        [⟨some "w1", some "hi", none, none, none⟩]).sentiment_distribution.neutral +
      (analyze_posts (fun _ => ⟨1/2, 0, 0, 0⟩)
        [⟨some "w1", some "hi", none, none, none⟩]).sentiment_distribution.negative = 1 :=
  c9_distribution_invariants (fun _ => ⟨1/2, 0, 0, 0⟩)
    [⟨some "w1", some "hi", none, none, none⟩] (by decide) (by decide)

/-! ## Price correlation: `app.py` `get_price_correlation` -/

/-- The last `k` elements of a list — Python `l[-k:]` for `k ≥ 1`. -/
def lastN {α : Type} (k : ℕ) (l : List α) : List α := l.drop (l.length - k)

/-- `n·Σx² − (Σx)²`: the numerator of `n²·Var(x)`; nonnegative, zero exactly
for a constant (or empty) series. -/
def sxx (xs : List ℚ) : ℚ :=
  (xs.length : ℚ) * (xs.map (fun x => x ^ 2)).sum - xs.sum ^ 2

/-- `n·Σxy − Σx·Σy`: the covariance numerator scaled like `sxx`. -/
def sxy (xs ys : List ℚ) : ℚ :=
  (xs.length : ℚ) * (List.zipWith (fun a b => a * b) xs ys).sum - xs.sum * ys.sum

/-- One matrix cell as the Python float lands in the dict: `nan` is an IEEE
NaN; `flt q` is a plain float written directly (the `1.0`/`0` fallbacks and
the demo-path values); `corr n d` is the value `np.corrcoef` returns for a
non-degenerate pair, the real number `n / √d` with `d > 0`. -/
inductive CorrEntry where
  | nan : CorrEntry
  | flt : ℚ → CorrEntry
  | corr : ℚ → ℚ → CorrEntry
deriving DecidableEq, Repr

/-- The real number a `CorrEntry` denotes (`none` for NaN). -/
noncomputable def CorrEntry.value : CorrEntry → Option ℝ
  | .nan => none
  | .flt q => some (q : ℝ)
  | .corr n d => some ((n : ℝ) / Real.sqrt (d : ℝ))

/-- `np.corrcoef(data1, data2)[0, 1]` on two equal-length 1-D arrays in
exact arithmetic.  With fewer than two points the degrees of freedom are
`≤ 0`, and with a zero-variance input the quotient is `0/0`: in both cases
numpy emits a RuntimeWarning and produces NaN — it does not raise.
Otherwise the value is `sxy/√(sxx·syy)`, the Pearson coefficient. -/
def np_corrcoef (xs ys : List ℚ) : CorrEntry :=
  if xs.length < 2 then .nan
  else if sxx xs * sxx ys = 0 then .nan
  else .corr (sxy xs ys) (sxx xs * sxx ys)

/-- `price_data[c]` for the real-data path; the call sites only look up
keys present in the dict, a missing key is given the default `[]`. -/
def lookupPrices (pd : List (String × List ℚ)) (c : String) : List ℚ :=
  (pd.lookup c).getD []

/-- Lines 209-225 of `app.py`, the body of the doubly nested loop of the
real-data path: truncate both series to the shorter length by taking the
most recent points, call `np.corrcoef` if there is at least one point, else
fall back to `1.0` for a self-pair and `0` otherwise.  The `except` branch
applies the same fallback, but `np.corrcoef` does not raise on equal-length
1-D arrays (degenerate inputs yield NaN with a warning), so it is
unreachable for these calls. -/
def realEntry (pd : List (String × List ℚ)) (c1 c2 : String) : CorrEntry :=
  let p1 := lookupPrices pd c1
  let p2 := lookupPrices pd c2
  let m := min p1.length p2.length
  if 0 < m then np_corrcoef (lastN m p1) (lastN m p2)
  else if c1 = c2 then .flt 1 else .flt 0

/-- The full real-data `correlation_matrix` dict: each outer iteration
starts a fresh row and fills every column independently. -/
def realCorrelationMatrix (pd : List (String × List ℚ)) :
    List (String × List (String × CorrEntry)) :=
  pd.map (fun r1 => (r1.1, pd.map (fun r2 => (r2.1, realEntry pd r1.1 r2.1))))

/-- Python `needle in hay` on strings. -/
def strContains (hay needle : String) : Bool :=
  hay.data.tails.any (fun t => needle.data.isPrefixOf t)

/-- The demo-path pair value of lines 155-170: a seed from
`hash(f"{coin1}-{coin2}") % 1000 / 1000.0` (the process-wide string hash is
the abstract parameter `h`; Python `%` on a positive modulus is `Int.emod`)
scaled by the category of the pair.  Float literals are written as equal
rationals. -/
def demoCorr (h : String → ℤ) (c1 c2 : String) : ℚ :=
  let seed : ℚ := ((h (c1 ++ "-" ++ c2) % 1000 : ℤ) : ℚ) / 1000
  if strContains c1 "tether" || strContains c2 "tether" ||
      strContains c1 "usdc" || strContains c2 "usdc" then
    seed * (3/10)
  else if (strContains c1 "bitcoin" && strContains c2 "ethereum") ||
      (strContains c2 "bitcoin" && strContains c1 "ethereum") then
    7/10 + seed * (2/10)
  else
    3/10 + seed * (4/10)

/-- The demo-path `correlation_matrix`: a dict of dicts. -/
def CorrDict : Type := String → Option (String → Option ℚ)

def emptyRow : String → Option ℚ := fun _ => none

/-- Row access with the `setdefault` default. -/
def getRow (M : CorrDict) (a : String) : String → Option ℚ := (M a).getD emptyRow

/-- `M[a][b] = v` (and `M.setdefault(a, {})[b] = v`, which is the same
update: the row is created if absent). -/
def setEntry (M : CorrDict) (a b : String) (v : ℚ) : CorrDict :=
  fun x => if x = a then some (fun y => if y = b then some v else getRow M a y) else M x

/-- `correlation_matrix[coin1] = {}` — the fresh-row reset at line 144. -/
def setRow0 (M : CorrDict) (a : String) : CorrDict :=
  fun x => if x = a then some emptyRow else M x

/-- `correlation_matrix[a][b]` if both levels exist. -/
def entry2 (M : CorrDict) (a b : String) : Option ℚ := (M a).bind (fun r => r b)

/-- Lines 146-172, the body of the inner demo loop: a self-pair is written
as `1.0`; otherwise the pair value is written at `(c1,c2)` and mirrored at
`(c2,c1)` via `setdefault`. -/
def demoInner (h : String → ℤ) (c1 : String) (M : CorrDict) (c2 : String) : CorrDict :=
  if c1 = c2 then setEntry M c1 c2 1
  else setEntry (setEntry M c1 c2 (demoCorr h c1 c2)) c2 c1 (demoCorr h c1 c2)

/-- One outer demo iteration: reset row `c1`, then run the inner loop over
all coins. -/
def demoOuter (h : String → ℤ) (coins : List String) (M : CorrDict) (c1 : String) : CorrDict :=
  coins.foldl (demoInner h c1) (setRow0 M c1)

/-- The whole demo-path matrix construction (lines 143-172). -/
def demoCorrelationMatrix (h : String → ℤ) (coins : List String) : CorrDict :=
  coins.foldl (demoOuter h coins) (fun _ => none)

theorem entry2_setEntry (M : CorrDict) (a b : String) (v : ℚ) (x y : String) :
    entry2 (setEntry M a b v) x y = if x = a ∧ y = b then some v else entry2 M x y := by
  by_cases hx : x = a
  · subst hx
    cases hMa : M x with
    | none =>
      by_cases hy : y = b <;> simp [entry2, setEntry, getRow, hMa, hy, emptyRow]
    | some r =>
      by_cases hy : y = b <;> simp [entry2, setEntry, getRow, hMa, hy]
  · simp [entry2, setEntry, hx]

theorem entry2_setRow0 (M : CorrDict) (a x y : String) :
    entry2 (setRow0 M a) x y = if x = a then none else entry2 M x y := by
  by_cases hx : x = a
  · subst hx; simp [entry2, setRow0, emptyRow]
  · simp [entry2, setRow0, hx]

theorem innerFold_entry (h : String → ℤ) (c1 : String) (l : List String) :
    ∀ (M : CorrDict) (a b : String),
    entry2 (l.foldl (demoInner h c1) M) a b =
      if a = c1 ∧ b ∈ l then some (if c1 = b then 1 else demoCorr h c1 b)
      else if b = c1 ∧ a ∈ l ∧ a ≠ c1 then some (demoCorr h c1 a)
      else entry2 M a b := by
  induction l with
  | nil => intro M a b; simp
  | cons c2 t ih =>
    intro M a b
    rw [List.foldl_cons, ih]
    by_cases hcc : c1 = c2
    · subst hcc
      by_cases ha : a = c1 <;> by_cases hb : b = c1 <;>
        by_cases hbt : b ∈ t <;> by_cases hat : a ∈ t <;>
        simp_all [demoInner, entry2_setEntry, List.mem_cons]
    · by_cases ha : a = c1 <;> by_cases hb : b = c1 <;>
        by_cases hbt : b ∈ t <;> by_cases hat : a ∈ t <;>
        by_cases hac : a = c2 <;> by_cases hbc : b = c2 <;>
        simp_all [demoInner, entry2_setEntry, List.mem_cons]

theorem demoOuter_entry (h : String → ℤ) (coins : List String) (M : CorrDict)
    (c1 a b : String) :
    entry2 (demoOuter h coins M c1) a b =
      if a = c1 ∧ b ∈ coins then some (if c1 = b then 1 else demoCorr h c1 b)
      else if b = c1 ∧ a ∈ coins ∧ a ≠ c1 then some (demoCorr h c1 a)
      else if a = c1 then none
      else entry2 M a b := by
  unfold demoOuter
  rw [innerFold_entry h c1 coins (setRow0 M c1) a b, entry2_setRow0]

/-- Rows and columns of the matrix dict only ever hold coin keys. -/
def ClosedDict (coins : List String) (M : CorrDict) : Prop :=
  ∀ a b, (a ∉ coins ∨ b ∉ coins) → entry2 M a b = none

/-- The matrix dict is symmetric. -/
def SymDict (M : CorrDict) : Prop := ∀ a b, entry2 M a b = entry2 M b a

theorem demoOuter_closed (h : String → ℤ) (coins : List String) (M : CorrDict)
    (c1 : String) (hc1 : c1 ∈ coins) (hC : ClosedDict coins M) :
    ClosedDict coins (demoOuter h coins M c1) := by
  intro a b hab
  rw [demoOuter_entry]
  rcases hab with hna | hnb
  · have ha : a ≠ c1 := fun e => hna (e ▸ hc1)
    rw [if_neg (fun hh => ha hh.1), if_neg (fun hh => hna hh.2.1), if_neg ha]
    exact hC a b (Or.inl hna)
  · have hb : b ≠ c1 := fun e => hnb (e ▸ hc1)
    rw [if_neg (fun hh => hnb hh.2), if_neg (fun hh => hb hh.1)]
    by_cases ha : a = c1
    · rw [if_pos ha]
    · rw [if_neg ha]
      exact hC a b (Or.inr hnb)

theorem demoOuter_sym (h : String → ℤ) (coins : List String) (M : CorrDict)
    (c1 : String) (hc1 : c1 ∈ coins) (hC : ClosedDict coins M) (hS : SymDict M) :
    SymDict (demoOuter h coins M c1) := by
  intro a b
  rw [demoOuter_entry, demoOuter_entry]
  by_cases ha : a = c1
  · by_cases hb : b = c1
    · have hain : a ∈ coins := by rw [ha]; exact hc1
      have hbin : b ∈ coins := by rw [hb]; exact hc1
      rw [if_pos (show a = c1 ∧ b ∈ coins from ⟨ha, hbin⟩),
        if_pos (hb.symm : c1 = b),
        if_pos (show b = c1 ∧ a ∈ coins from ⟨hb, hain⟩),
        if_pos (ha.symm : c1 = a)]
    · by_cases hbc : b ∈ coins
      · have h1 : ¬(c1 = b) := fun e => hb e.symm
        rw [if_pos (show a = c1 ∧ b ∈ coins from ⟨ha, hbc⟩), if_neg h1,
          if_neg (fun hh : b = c1 ∧ a ∈ coins => hb hh.1),
          if_pos (show a = c1 ∧ b ∈ coins ∧ b ≠ c1 from ⟨ha, hbc, hb⟩)]
      · rw [if_neg (fun hh : a = c1 ∧ b ∈ coins => hbc hh.2),
          if_neg (fun hh : b = c1 ∧ a ∈ coins ∧ a ≠ c1 => hb hh.1),
          if_pos ha,
          if_neg (fun hh : b = c1 ∧ a ∈ coins => hb hh.1),
          if_neg (fun hh : a = c1 ∧ b ∈ coins ∧ b ≠ c1 => hbc hh.2.1),
          if_neg hb]
        exact (hC b a (Or.inl hbc)).symm
  · by_cases hb : b = c1
    · by_cases hac : a ∈ coins
      · have h2 : ¬(c1 = a) := fun e => ha e.symm
        rw [if_neg (fun hh : a = c1 ∧ b ∈ coins => ha hh.1),
          if_pos (show b = c1 ∧ a ∈ coins ∧ a ≠ c1 from ⟨hb, hac, ha⟩),
          if_pos (show b = c1 ∧ a ∈ coins from ⟨hb, hac⟩),
          if_neg h2]
      · rw [if_neg (fun hh : a = c1 ∧ b ∈ coins => ha hh.1),
          if_neg (fun hh : b = c1 ∧ a ∈ coins ∧ a ≠ c1 => hac hh.2.1),
          if_neg ha,
          if_neg (fun hh : b = c1 ∧ a ∈ coins => hac hh.2),
          if_neg (fun hh : a = c1 ∧ b ∈ coins ∧ b ≠ c1 => ha hh.1),
          if_pos hb]
        exact hC a b (Or.inl hac)
    · rw [if_neg (fun hh : a = c1 ∧ b ∈ coins => ha hh.1),
        if_neg (fun hh : b = c1 ∧ a ∈ coins ∧ a ≠ c1 => hb hh.1),
        if_neg ha,
        if_neg (fun hh : b = c1 ∧ a ∈ coins => hb hh.1),
        if_neg (fun hh : a = c1 ∧ b ∈ coins ∧ b ≠ c1 => ha hh.1),
        if_neg hb]
      exact hS a b

theorem demoOuter_diag_new (h : String → ℤ) (coins : List String) (M : CorrDict)
    (c1 : String) (hc1 : c1 ∈ coins) :
    entry2 (demoOuter h coins M c1) c1 c1 = some 1 := by
  rw [demoOuter_entry, if_pos ⟨rfl, hc1⟩, if_pos rfl]

theorem demoOuter_diag_keep (h : String → ℤ) (coins : List String) (M : CorrDict)
    (c1 a : String) (hc1 : c1 ∈ coins) (hd : entry2 M a a = some 1) :
    entry2 (demoOuter h coins M c1) a a = some 1 := by
  by_cases ha : a = c1
  · subst ha
    exact demoOuter_diag_new h coins M a hc1
  · rw [demoOuter_entry, if_neg (fun hh => ha hh.1), if_neg (fun hh => ha hh.1), if_neg ha]
    exact hd

theorem demoFold_props (h : String → ℤ) (coins : List String) (l : List String)
    (hl : ∀ x ∈ l, x ∈ coins) :
    ∀ M : CorrDict, ClosedDict coins M → SymDict M →
      ClosedDict coins (l.foldl (demoOuter h coins) M) ∧
      SymDict (l.foldl (demoOuter h coins) M) ∧
      (∀ a, (a ∈ l ∨ entry2 M a a = some 1) →
        entry2 (l.foldl (demoOuter h coins) M) a a = some 1) := by
  induction l with
  | nil =>
    intro M hC hS
    refine ⟨hC, hS, fun a ha => ?_⟩
    rcases ha with ha | ha
    · exact absurd ha (List.not_mem_nil a)
    · exact ha
  | cons c1 t ih =>
    intro M hC hS
    have hc1 : c1 ∈ coins := hl c1 (List.mem_cons_self c1 t)
    have hC1 := demoOuter_closed h coins M c1 hc1 hC
    have hS1 := demoOuter_sym h coins M c1 hc1 hC hS
    rw [List.foldl_cons]
    obtain ⟨rC, rS, rD⟩ :=
      ih (fun x hx => hl x (List.mem_cons_of_mem c1 hx)) (demoOuter h coins M c1) hC1 hS1
    refine ⟨rC, rS, fun a ha => ?_⟩
    rcases ha with ha | ha
    · rcases List.mem_cons.mp ha with rfl | hat
      · exact rD a (Or.inr (demoOuter_diag_new h coins M a hc1))
      · exact rD a (Or.inl hat)
    · exact rD a (Or.inr (demoOuter_diag_keep h coins M c1 a hc1 ha))

theorem demoMatrix_sym (h : String → ℤ) (coins : List String) :
    SymDict (demoCorrelationMatrix h coins) :=
  (demoFold_props h coins coins (fun _ hx => hx) (fun _ => none)
    (fun _ _ _ => rfl) (fun _ _ => rfl)).2.1

theorem demoMatrix_diag (h : String → ℤ) (coins : List String) (a : String)
    (ha : a ∈ coins) : entry2 (demoCorrelationMatrix h coins) a a = some 1 :=
  (demoFold_props h coins coins (fun _ hx => hx) (fun _ => none)
    (fun _ _ _ => rfl) (fun _ _ => rfl)).2.2 a (Or.inl ha)

theorem sum_sq_nonneg (l : List ℚ) : 0 ≤ (l.map (fun x => x ^ 2)).sum := by
  induction l with
  | nil => simp
  | cons a t ih =>
    simp only [List.map_cons, List.sum_cons]
    exact add_nonneg (sq_nonneg a) ih

theorem list_sq_sum_le (l : List ℚ) :
    l.sum ^ 2 ≤ (l.length : ℚ) * (l.map (fun x => x ^ 2)).sum := by
  induction l with
  | nil => simp
  | cons a t ih =>
    rcases Nat.eq_zero_or_pos t.length with h0 | hpos
    · have ht : t = [] := List.length_eq_zero.mp h0
      subst ht
      simp
    · have hn : (0:ℚ) < (t.length : ℚ) := by exact_mod_cast hpos
      simp only [List.sum_cons, List.map_cons, List.length_cons]
      push_cast
      have key : (t.length : ℚ) *
          (((t.length : ℚ) + 1) * (a ^ 2 + (t.map (fun x => x ^ 2)).sum) - (a + t.sum) ^ 2) =
          ((t.length : ℚ) * a - t.sum) ^ 2 +
            ((t.length : ℚ) + 1) *
              ((t.length : ℚ) * (t.map (fun x => x ^ 2)).sum - t.sum ^ 2) := by
        ring
      nlinarith [key, sq_nonneg ((t.length : ℚ) * a - t.sum), ih, hn]

theorem sxx_nonneg (l : List ℚ) : 0 ≤ sxx l := by
  unfold sxx
  linarith [list_sq_sum_le l]

theorem zipWith_mul_self (l : List ℚ) :
    List.zipWith (fun a b => a * b) l l = l.map (fun x => x ^ 2) := by
  induction l with
  | nil => rfl
  | cons a t ih => simp [ih, sq]

theorem sxy_self (l : List ℚ) : sxy l l = sxx l := by
  unfold sxy sxx
  rw [zipWith_mul_self]
  ring

theorem sxy_comm (xs ys : List ℚ) (h : xs.length = ys.length) : sxy xs ys = sxy ys xs := by
  unfold sxy
  rw [List.zipWith_comm_of_comm (fun a b => a * b) (fun a b => mul_comm a b), h]
  ring

theorem np_corrcoef_comm (xs ys : List ℚ) (h : xs.length = ys.length) :
    np_corrcoef xs ys = np_corrcoef ys xs := by
  unfold np_corrcoef
  rw [h, sxy_comm xs ys h, mul_comm (sxx xs) (sxx ys)]

theorem length_lastN {α : Type} (k : ℕ) (l : List α) (h : k ≤ l.length) :
    (lastN k l).length = k := by
  simp [lastN]
  omega

theorem lastN_full {α : Type} (l : List α) : lastN l.length l = l := by
  simp [lastN]

theorem realEntry_symm (pd : List (String × List ℚ)) (a b : String) :
    realEntry pd a b = realEntry pd b a := by
  simp only [realEntry]
  rw [min_comm (lookupPrices pd b).length (lookupPrices pd a).length]
  by_cases h0 : 0 < min (lookupPrices pd a).length (lookupPrices pd b).length
  · rw [if_pos h0, if_pos h0]
    apply np_corrcoef_comm
    rw [length_lastN _ _ (min_le_left _ _), length_lastN _ _ (min_le_right _ _)]
  · rw [if_neg h0, if_neg h0]
    by_cases hab : a = b
    · rw [if_pos hab, if_pos hab.symm]
    · rw [if_neg hab, if_neg (fun e => hab e.symm)]

theorem np_corrcoef_self (p : List ℚ) (h2 : 2 ≤ p.length) (hS : sxx p ≠ 0) :
    np_corrcoef p p = CorrEntry.corr (sxx p) (sxx p * sxx p) := by
  unfold np_corrcoef
  rw [if_neg (by omega), if_neg (mul_ne_zero hS hS), sxy_self]

theorem realEntry_self (pd : List (String × List ℚ)) (a : String)
    (h2 : 2 ≤ (lookupPrices pd a).length) (hS : sxx (lookupPrices pd a) ≠ 0) :
    realEntry pd a a =
      CorrEntry.corr (sxx (lookupPrices pd a))
        (sxx (lookupPrices pd a) * sxx (lookupPrices pd a)) := by
  simp only [realEntry, min_self]
  rw [if_pos (by omega : 0 < (lookupPrices pd a).length), lastN_full]
  exact np_corrcoef_self _ h2 hS

theorem corr_self_value (S : ℚ) (hpos : 0 < S) :
    (CorrEntry.corr S (S * S)).value = some 1 := by
  have hR : (0:ℝ) < (S : ℝ) := by exact_mod_cast hpos
  simp only [CorrEntry.value]
  rw [show ((S * S : ℚ) : ℝ) = (S:ℝ) * (S:ℝ) by push_cast; ring,
    Real.sqrt_mul_self (le_of_lt hR), div_self (ne_of_gt hR)]

theorem realEntry_self_value (pd : List (String × List ℚ)) (a : String)
    (h2 : 2 ≤ (lookupPrices pd a).length) (hS : sxx (lookupPrices pd a) ≠ 0) :
    (realEntry pd a a).value = some 1 := by
  have hpos : 0 < sxx (lookupPrices pd a) := lt_of_le_of_ne (sxx_nonneg _) (Ne.symm hS)
  rw [realEntry_self pd a h2 hS]
  exact corr_self_value _ hpos

/-- C2 (amended): the demo-path matrix is symmetric with every diagonal
entry forced to `1.0`.  The real-data path computes every ordered pair
independently (self-pairs included), yet the resulting entries are still
symmetric in exact arithmetic, and a self-pair equals `1.0` exactly when
the series has at least two points and nonzero variance (otherwise it is
the computed `np.corrcoef` NaN, see the counterexample). -/
theorem c2_correlation_matrix :
    (∀ (h : String → ℤ) (coins : List String) (a b : String),
      entry2 (demoCorrelationMatrix h coins) a b =
        entry2 (demoCorrelationMatrix h coins) b a) ∧
    (∀ (h : String → ℤ) (coins : List String) (a : String), a ∈ coins →
      entry2 (demoCorrelationMatrix h coins) a a = some 1) ∧
    (∀ (pd : List (String × List ℚ)) (a b : String), realEntry pd a b = realEntry pd b a) ∧
    (∀ (pd : List (String × List ℚ)) (a : String),
      2 ≤ (lookupPrices pd a).length → sxx (lookupPrices pd a) ≠ 0 →
      (realEntry pd a a).value = some 1) :=
  ⟨fun h coins a b => demoMatrix_sym h coins a b,
   fun h coins a ha => demoMatrix_diag h coins a ha,
   fun pd a b => realEntry_symm pd a b,
   fun pd a h2 hS => realEntry_self_value pd a h2 hS⟩

/-- Witness for C2 at a concrete hash, coin list and price dict. -/
theorem c2_correlation_matrix_witness :
    entry2 (demoCorrelationMatrix (fun _ => 7) ["aa", "bb"]) "aa" "bb" =
      entry2 (demoCorrelationMatrix (fun _ => 7) ["aa", "bb"]) "bb" "aa" ∧
    entry2 (demoCorrelationMatrix (fun _ => 7) ["aa", "bb"]) "aa" "aa" = some 1 ∧
    realEntry [("aa", [(1:ℚ), 2, 4]), ("bb", [2, 3, 9])] "aa" "bb" =
      realEntry [("aa", [(1:ℚ), 2, 4]), ("bb", [2, 3, 9])] "bb" "aa" ∧
    (realEntry [("aa", [(1:ℚ), 2, 4]), ("bb", [2, 3, 9])] "aa" "aa").value = some 1 := by
  have hl : lookupPrices [("aa", [(1:ℚ), 2, 4]), ("bb", [2, 3, 9])] "aa" = [1, 2, 4] := by
    decide
  refine ⟨c2_correlation_matrix.1 _ _ _ _, c2_correlation_matrix.2.1 _ _ _ (by decide),
    c2_correlation_matrix.2.2.1 _ _ _, c2_correlation_matrix.2.2.2 _ _ (by decide) ?_⟩
  rw [hl]
  norm_num [sxx]

/-- C2 counterexample: in the real-data path the self-pair is computed by
`np.corrcoef`, not forced to `1.0`; with a single-point series the diagonal
entry is NaN, whose value is not `1.0`. -/
theorem c2_realpath_diag_counterexample :
    realEntry [("aa", [(5:ℚ)]), ("bb", [7])] "aa" "aa" = CorrEntry.nan ∧
    CorrEntry.nan.value ≠ some 1 := by
  refine ⟨by decide, by simp [CorrEntry.value]⟩

/-- C3 (amended): the direct degenerate fallback (`1.0` for a self-pair,
`0` otherwise) applies exactly when the truncated overlap is empty
(`min_length = 0`); a pair with exactly one overlapping point is passed to
`np.corrcoef`, which returns NaN rather than raising, so the entry is NaN,
not the fallback; and a computed pair whose truncated series has zero
variance also produces NaN rather than an error. -/
theorem c3_degenerate_pairs (pd : List (String × List ℚ)) (a b : String) :
    (min (lookupPrices pd a).length (lookupPrices pd b).length = 0 →
      realEntry pd a b = (if a = b then CorrEntry.flt 1 else CorrEntry.flt 0)) ∧
    (min (lookupPrices pd a).length (lookupPrices pd b).length = 1 →
      realEntry pd a b = CorrEntry.nan) ∧
    (∀ m, m = min (lookupPrices pd a).length (lookupPrices pd b).length → 0 < m →
      sxx (lastN m (lookupPrices pd a)) * sxx (lastN m (lookupPrices pd b)) = 0 →
      realEntry pd a b = CorrEntry.nan) := by
  refine ⟨?_, ?_, ?_⟩
  · intro h0
    simp only [realEntry]
    rw [h0]
    simp
  · intro h1
    have hA : 1 ≤ (lookupPrices pd a).length := by
      have := min_le_left (lookupPrices pd a).length (lookupPrices pd b).length
      omega
    simp only [realEntry]
    rw [h1, if_pos one_pos]
    unfold np_corrcoef
    rw [if_pos (by rw [length_lastN 1 _ hA]; omega)]
  · intro m hm hmpos hzero
    simp only [realEntry]
    rw [← hm, if_pos hmpos]
    unfold np_corrcoef
    by_cases hsmall : (lastN m (lookupPrices pd a)).length < 2
    · rw [if_pos hsmall]
    · rw [if_neg hsmall, if_pos hzero]

/-- Witness for C3: an empty overlap falls back to `0`/`1.0`, a one-point
overlap and a constant two-point series both give NaN. -/
theorem c3_degenerate_pairs_witness :
    realEntry [("aa", ([] : List ℚ)), ("bb", [1, 2])] "aa" "bb" =
      (if ("aa" : String) = "bb" then CorrEntry.flt 1 else CorrEntry.flt 0) ∧
    realEntry [("aa", ([] : List ℚ)), ("bb", [1, 2])] "aa" "aa" =
      (if ("aa" : String) = "aa" then CorrEntry.flt 1 else CorrEntry.flt 0) ∧
    realEntry [("cc", [(5:ℚ)]), ("dd", [7])] "cc" "dd" = CorrEntry.nan ∧
    realEntry [("ee", [(3:ℚ), 3]), ("ff", [1, 2])] "ee" "ff" = CorrEntry.nan := by
  have he : lastN 2 (lookupPrices [("ee", [(3:ℚ), 3]), ("ff", [1, 2])] "ee") = [3, 3] := by
    decide
  refine ⟨(c3_degenerate_pairs _ "aa" "bb").1 (by decide),
    (c3_degenerate_pairs _ "aa" "aa").1 (by decide),
    (c3_degenerate_pairs _ "cc" "dd").2.1 (by decide),
    (c3_degenerate_pairs _ "ee" "ff").2.2 2 (by decide) (by omega) ?_⟩
  rw [he]
  norm_num [sxx]

/-- C3 counterexample: a distinct pair with exactly one overlapping point
(both series nonempty, shorter has a single point) yields the computed NaN,
not the degenerate `0` the claim asserts for "fewer than 2 points". -/
theorem c3_one_point_counterexample :
    realEntry [("aa", [(5:ℚ)]), ("bb", [7])] "aa" "bb" = CorrEntry.nan ∧
    CorrEntry.nan ≠ CorrEntry.flt 0 ∧ CorrEntry.nan.value ≠ some 0 := by
  refine ⟨by decide, by decide, by simp [CorrEntry.value]⟩

/-! ## Price analysis: `utils/analysis.py` `PriceAnalyzer` -/

/-- The input of `PriceAnalyzer.analyze`: the coin id (read with
`.get('id', 'unknown')`) and the price column of the history rows (the
analysis touches only `price`). -/
structure PriceHistory where
  id : Option String
  prices : List ℚ

/-- `Series.rolling(window=w).mean()` of pandas: NaN (here `none`) while the
window is not yet full, else the trailing mean of the last `w` values. -/
def rollingMean (w : ℕ) (p : List ℚ) : List (Option ℚ) :=
  (List.range p.length).map (fun i =>
    if i + 1 < w then none
    else some (((p.take (i + 1)).drop (i + 1 - w)).sum / (w : ℚ)))

/-- `calculate_moving_averages` (lines 14-30): the MA7/MA14/MA30/MA50
columns added to the frame. -/
def calculate_moving_averages (p : List ℚ) :
    List (Option ℚ) × List (Option ℚ) × List (Option ℚ) × List (Option ℚ) :=
  (rollingMean 7 p, rollingMean 14 p, rollingMean 30 p, rollingMean 50 p)

/-- `Series.pct_change(periods=k) * 100`: NaN for the first `k` rows.  The
source multiplies the ratio by `100` separately (lines 43 and 76-78); the
factor is folded in here. -/
def pctChange (k : ℕ) (p : List ℚ) : List (Option ℚ) :=
  (List.range p.length).map (fun i =>
    if i < k then none
    else some ((p.getD i 0 - p.getD (i - k) 0) / p.getD (i - k) 0 * 100))

def validVals (l : List (Option ℚ)) : List ℚ := l.filterMap id

def qMean (l : List ℚ) : ℚ := l.sum / (l.length : ℚ)

/-- pandas `Series.std()`: sample standard deviation (`ddof=1`) over the
non-NaN values; NaN (here `none`) when fewer than two values remain. -/
noncomputable def sampleStd (l : List ℚ) : Option ℝ :=
  if l.length < 2 then none
  else some (Real.sqrt
    (((l.map (fun x => (x - qMean l) ^ 2)).sum / ((l.length : ℚ) - 1) : ℚ) : ℝ))

structure VolatilityData where
  overall_volatility_percent : Option ℝ
  avg_daily_change : Option ℚ
  volatility_7d : Option ℝ
  volatility_14d : Option ℝ
  volatility_30d : Option ℝ

/-- `calculate_volatility` (lines 32-63).  `daily_return` has a NaN first
row; `.tail(k)` takes the last `k` rows; `.std()`/`.mean()` skip NaN. -/
noncomputable def calculate_volatility (p : List ℚ) : VolatilityData :=
  let rets := pctChange 1 p
  let diffs := (List.range p.length).map (fun i =>
    if i = 0 then none else some |p.getD i 0 - p.getD (i - 1) 0|)
  { overall_volatility_percent := sampleStd (validVals rets),
    avg_daily_change :=
      (if (validVals diffs).length = 0 then none else some (qMean (validVals diffs))),
    volatility_7d := sampleStd (validVals (lastN 7 rets)),
    volatility_14d := sampleStd (validVals (lastN 14 rets)),
    volatility_30d := sampleStd (validVals (lastN 30 rets)) }

structure Momentum where
  roc_7d : Option ℚ
  roc_14d : Option ℚ
  roc_30d : Option ℚ
  is_uptrend_7_14 : Bool
  is_uptrend_14_30 : Bool

/-- Python `>` on two floats that may be NaN: any comparison with NaN is
`False`. -/
def optGT : Option ℚ → Option ℚ → Bool
  | some x, some y => decide (y < x)
  | _, _ => false

/-- `Series.iloc[-1]` on a column that may hold NaN. -/
def latestOpt (l : List (Option ℚ)) : Option ℚ := l.getLastD none

/-- `price_momentum` (lines 65-95), called on a nonempty frame to which the
MA columns were already added; the columns are deterministic in the price
list, so they are recomputed here. -/
def price_momentum (p : List ℚ) : Momentum :=
  { roc_7d := latestOpt (pctChange 7 p),
    roc_14d := latestOpt (pctChange 14 p),
    roc_30d := latestOpt (pctChange 30 p),
    is_uptrend_7_14 := optGT (latestOpt (rollingMean 7 p)) (latestOpt (rollingMean 14 p)),
    is_uptrend_14_30 := optGT (latestOpt (rollingMean 14 p)) (latestOpt (rollingMean 30 p)) }

structure PriceRange where
  current_price : ℚ
  lower_bound : Option ℝ
  upper_bound : Option ℝ

/-- `predict_price_range` (lines 97-130).  A NaN volatility (possible when
the series has fewer than three points) propagates through the float
arithmetic into NaN bounds; the current price itself stays exact. -/
noncomputable def predict_price_range (p : List ℚ) (volatility : Option ℝ) : PriceRange :=
  if p.isEmpty then { current_price := 0, lower_bound := some 0, upper_bound := some 0 }
  else
    let current : ℚ := p.getLastD 0
    match volatility with
    | none => { current_price := current, lower_bound := none, upper_bound := none }
    | some v =>
      let daily_vol := v / Real.sqrt 7
      let weekly_range := 1.96 * daily_vol * Real.sqrt 7
      { current_price := current,
        lower_bound := some ((current : ℝ) * (1 - weekly_range / 100)),
        upper_bound := some ((current : ℝ) * (1 + weekly_range / 100)) }

structure MovingAveragesOut where
  MA7 : Option ℚ
  MA14 : Option ℚ
  MA30 : Option ℚ
  MA50 : Option ℚ

/-- The `summary` dict.  `recent_performance` is formatted in the source as
`f"{roc_7d:.2f}% (7d)"`; the numeric content is modelled. -/
structure AnalysisSummary where
  trend : String
  volatility_level : String
  recent_performance : Option ℚ

structure Report where
  coin_id : String
  current_price : ℚ
  moving_averages : MovingAveragesOut
  volatility : VolatilityData
  momentum : Momentum
  price_prediction : PriceRange
  summary : AnalysisSummary

inductive AnalysisResult where
  | err : String → AnalysisResult
  | report : Report → AnalysisResult

/-- `PriceAnalyzer.analyze` (lines 132-213).  For a nonempty rational price
list none of the numeric operations raises (degenerate cases produce NaN,
modelled by `none`), so the `except` branch of the source is unreachable
and the function is total: empty input gives the error dict, anything else
a full report.  Float NaN fails every `>` comparison, so a NaN overall
volatility classifies as `"Low"`. -/
noncomputable def analyze (ph : PriceHistory) : AnalysisResult :=
  if ph.prices = [] then .err "No price data available for analysis"
  else
    let p := ph.prices
    let mas := calculate_moving_averages p
    let vols := calculate_volatility p
    let mom := price_momentum p
    let pred := predict_price_range p vols.overall_volatility_percent
    let latest_ma : MovingAveragesOut :=
      { MA7 := latestOpt mas.1, MA14 := latestOpt mas.2.1,
        MA30 := latestOpt mas.2.2.1, MA50 := latestOpt mas.2.2.2 }
    let trend :=
      if mom.is_uptrend_7_14 && mom.is_uptrend_14_30 then "Strong Uptrend"
      else if mom.is_uptrend_7_14 then "Moderate Uptrend"
      else if !mom.is_uptrend_7_14 && !mom.is_uptrend_14_30 then "Strong Downtrend"
      else "Moderate Downtrend"
    let vlevel :=
      match vols.overall_volatility_percent with
      | some v => if 5 < v then "High" else if 2 < v then "Medium" else "Low"
      | none => "Low"
    .report
      { coin_id := ph.id.getD "unknown",
        current_price := pred.current_price,
        moving_averages := latest_ma,
        volatility := vols,
        momentum := mom,
        price_prediction := pred,
        summary := { trend := trend, volatility_level := vlevel,
                     recent_performance := mom.roc_7d } }

theorem latestOpt_rollingMean (w : ℕ) (p : List ℚ) (hp : 0 < p.length) :
    latestOpt (rollingMean w p) =
      if p.length < w then none else some ((lastN w p).sum / (w : ℚ)) := by
  obtain ⟨n, hn⟩ : ∃ n, p.length = n + 1 := ⟨p.length - 1, by omega⟩
  unfold latestOpt rollingMean
  rw [hn, List.range_succ, List.map_append, List.map_cons, List.map_nil,
    List.getLastD_concat, ← hn, List.take_length]
  simp [lastN]

/-- C7: an empty price list yields exactly the error dict
`{"error": "No price data available for analysis"}` and nothing else. -/
theorem c7_empty_series (ph : PriceHistory) (h : ph.prices = []) :
    analyze ph = .err "No price data available for analysis" := by
  simp [analyze, h]

/-- Witness for C7 at the empty history. -/
theorem c7_empty_series_witness :
    analyze ⟨none, []⟩ = .err "No price data available for analysis" :=
  c7_empty_series ⟨none, []⟩ rfl

/-- C10: `analyze` is total — every input produces either the error dict
(exactly for an empty price list; any internal failure would be caught by
the same `except`, but none of the numeric operations raises on rational
inputs) or a complete report with all seven keys (the `Report` record). -/
theorem c10_analyze_total (ph : PriceHistory) :
    (ph.prices = [] ∧ analyze ph = .err "No price data available for analysis") ∨
    (ph.prices ≠ [] ∧ ∃ rep, analyze ph = .report rep) := by
  by_cases h : ph.prices = []
  · exact Or.inl ⟨h, by simp [analyze, h]⟩
  · refine Or.inr ⟨h, ?_⟩
    unfold analyze
    rw [if_neg h]
    exact ⟨_, rfl⟩

/-- C5: with at least 50 points, the reported MA50 at the last index is the
arithmetic mean of the last 50 prices (exactly, over `ℚ`); and for every
window size in {7,14,30,50} the rolling mean at index `i` is `none` while
the window is not full (`i + 1 < w`) and the trailing mean of the last `w`
of the first `i+1` prices otherwise. -/
theorem c5_ma50 (ph : PriceHistory) (h : 50 ≤ ph.prices.length) :
    (∃ rep, analyze ph = .report rep ∧
      rep.moving_averages.MA50 = some ((lastN 50 ph.prices).sum / (50 : ℚ)) ∧
      (lastN 50 ph.prices).length = 50) ∧
    (∀ w ∈ ([7, 14, 30, 50] : List ℕ), ∀ i, i < ph.prices.length →
      (rollingMean w ph.prices)[i]? =
        some (if i + 1 < w then none
          else some ((lastN w (ph.prices.take (i + 1))).sum / (w : ℚ)))) := by
  have hne : ph.prices ≠ [] := by
    intro e
    rw [e] at h
    simp at h
  constructor
  · unfold analyze
    rw [if_neg hne]
    refine ⟨_, rfl, ?_, ?_⟩
    · show latestOpt (rollingMean 50 ph.prices) = some ((lastN 50 ph.prices).sum / (50 : ℚ))
      rw [latestOpt_rollingMean 50 ph.prices (by omega), if_neg (by omega)]
      norm_num
    · simp [lastN]
      omega
  · intro w hw i hi
    have hlen : (ph.prices.take (i + 1)).length = i + 1 := by
      rw [List.length_take]
      omega
    unfold rollingMean
    rw [List.getElem?_map, List.getElem?_range hi]
    simp [lastN, hlen]

/-- Witness for C5 at a 50-point constant series. -/
theorem c5_ma50_witness :
    (∃ rep, analyze ⟨none, List.replicate 50 (3 : ℚ)⟩ = .report rep ∧
      rep.moving_averages.MA50 =
        some ((lastN 50 (List.replicate 50 (3 : ℚ))).sum / (50 : ℚ)) ∧
      (lastN 50 (List.replicate 50 (3 : ℚ))).length = 50) ∧
    (∀ w ∈ ([7, 14, 30, 50] : List ℕ), ∀ i, i < (List.replicate 50 (3 : ℚ)).length →
      (rollingMean w (List.replicate 50 (3 : ℚ)))[i]? =
        some (if i + 1 < w then none
          else some ((lastN w ((List.replicate 50 (3 : ℚ)).take (i + 1))).sum / (w : ℚ)))) :=
  c5_ma50 ⟨none, List.replicate 50 (3 : ℚ)⟩ (by simp)

/-- C6: for a nonempty series the predicted range uses the daily standard
deviation `v/√7` and the 7-day band `r = 1.96·(v/√7)·√7` (which collapses
to `1.96·v`), applied symmetrically: `lower = p·(1 − r/100)`,
`upper = p·(1 + r/100)`, so the distance below the current price equals the
distance above it. -/
theorem c6_price_range (p : List ℚ) (v : ℝ) (h : p ≠ []) :
    ∃ r : ℝ,
      r = 1.96 * (v / Real.sqrt 7) * Real.sqrt 7 ∧
      r = 1.96 * v ∧
      (predict_price_range p (some v)).current_price = p.getLastD 0 ∧
      (predict_price_range p (some v)).lower_bound =
        some (((p.getLastD 0 : ℚ) : ℝ) * (1 - r / 100)) ∧
      (predict_price_range p (some v)).upper_bound =
        some (((p.getLastD 0 : ℚ) : ℝ) * (1 + r / 100)) ∧
      ((p.getLastD 0 : ℚ) : ℝ) - ((p.getLastD 0 : ℚ) : ℝ) * (1 - r / 100) =
        ((p.getLastD 0 : ℚ) : ℝ) * (1 + r / 100) - ((p.getLastD 0 : ℚ) : ℝ) := by
  have hs : Real.sqrt 7 ≠ 0 := by
    rw [Real.sqrt_ne_zero']
    norm_num
  have hne : p.isEmpty = false := by
    cases p with
    | nil => exact absurd rfl h
    | cons a t => rfl
  refine ⟨1.96 * (v / Real.sqrt 7) * Real.sqrt 7, rfl, ?_, ?_, ?_, ?_, ?_⟩
  · rw [mul_assoc, div_mul_cancel₀ v hs]
  · simp [predict_price_range, hne]
  · simp [predict_price_range, hne]
  · simp [predict_price_range, hne]
  · ring

/-- Witness for C6 at the one-point series `[100]` and volatility `7`. -/
theorem c6_price_range_witness :
    ∃ r : ℝ,
      r = 1.96 * ((7 : ℝ) / Real.sqrt 7) * Real.sqrt 7 ∧
      r = 1.96 * 7 ∧
      (predict_price_range [(100 : ℚ)] (some 7)).current_price = [(100 : ℚ)].getLastD 0 ∧
      (predict_price_range [(100 : ℚ)] (some 7)).lower_bound =
        some ((([(100 : ℚ)].getLastD 0 : ℚ) : ℝ) * (1 - r / 100)) ∧
      (predict_price_range [(100 : ℚ)] (some 7)).upper_bound =
        some ((([(100 : ℚ)].getLastD 0 : ℚ) : ℝ) * (1 + r / 100)) ∧
      (([(100 : ℚ)].getLastD 0 : ℚ) : ℝ) -
          (([(100 : ℚ)].getLastD 0 : ℚ) : ℝ) * (1 - r / 100) =
        (([(100 : ℚ)].getLastD 0 : ℚ) : ℝ) * (1 + r / 100) -
          (([(100 : ℚ)].getLastD 0 : ℚ) : ℝ) :=
  c6_price_range [(100 : ℚ)] 7 (by simp)
